import Mathlib

/-!
Verification of the `ctx` command-line utility (markdown context extractor).

The Rust sources are shallowly embedded: pure functions become Lean
functions, filesystem access becomes explicit passing of a finite
filesystem model, machine integers are `Nat` reduced modulo `2 ^ 64`
where overflow matters, and fallible code returns explicit outcome
types (with a dedicated constructor for panics where the source can
panic).
-/

namespace Ctx

/-! ## Character predicates used by the regex models -/

/-- Predicate for "any character" in the `regex` crate's default mode:
`.` matches every character except a newline. -/
def notNewline (c : Char) : Bool := decide (c ≠ '\n')

/-! ## `has_frontmatter` (src/md/markdown.rs)

The source tests `HAS_FM.is_match(content)` where
`HAS_FM = RegexBuilder::new(r"^---\n.?*\n---").multi_line(false)`.
With `multi_line(false)` the anchor `^` matches only at the start of the
haystack, and `.` (hence the repetition `.?*`, i.e. `(.?)*`) never
matches a newline.  So the regex matches exactly the strings that begin
with the four characters `---\n`, followed by a (possibly empty) run of
non-newline characters, followed by `\n---`.  Because the run is
newline-free and must be followed by `\n`, it is necessarily the whole
first line after the opening delimiter. -/
def has_frontmatter (content : String) : Bool :=
  decide (content.data.take 4 = ['-', '-', '-', '\n']) &&
  decide (((content.data.drop 4).dropWhile notNewline).take 4 = ['\n', '-', '-', '-'])

/-! ## `exclude_frontmatter` (src/md/markdown.rs)

The source replaces the first match of
`MD_PARTS = Regex::new(r"^---.*---(.*)")` by its capture `$1`
(`MD_PARTS.replace(content, "$1")`), but only when `has_frontmatter`
holds; otherwise it returns the content unchanged.  In the default mode
`.` does not match `\n` and `^` anchors at the start of the haystack, so
a match must lie entirely within the first line: the first line must
start with `---` and contain a further `---`; the greedy `.*` puts the
required `---` at its last occurrence in the line and `$1` captures the
remainder of the first line.  `Regex::replace` returns the input
unchanged when there is no match. -/

/-- Suffix of the list after the *last* occurrence of the three-character
run `---`, if any (the backtracking position chosen by the greedy `.*`
in `MD_PARTS`). -/
def lastTripleDashSplit : List Char → Option (List Char)
  | [] => none
  | c :: rest =>
    match lastTripleDashSplit rest with
    | some b => some b
    | none =>
      match c, rest with
      | '-', '-' :: '-' :: b => some b
      | _, _ => none

/-- `MD_PARTS.replace(content, "$1")`: when the anchored pattern
`^---.*---(.*)` matches (necessarily within the first line), the whole
match — the entire first line — is replaced by the capture `$1`;
otherwise the string is returned unchanged. -/
def md_parts_replace (s : String) : String :=
  if s.data.take 3 = ['-', '-', '-'] then
    match lastTripleDashSplit ((s.data.drop 3).takeWhile notNewline) with
    | some b => ⟨b ++ (s.data.drop 3).dropWhile notNewline⟩
    | none => s
  else s

/-- `exclude_frontmatter` from src/md/markdown.rs. -/
def exclude_frontmatter (content : String) : String :=
  if has_frontmatter content then md_parts_replace content
  else content

/-! ## The detection rule as the specification words it -/

/-- Lines of a string, splitting on `'\n'`. -/
def linesOf (s : String) : List String :=
  (s.data.splitOn '\n').map List.asString

/-- The frontmatter-detection rule as the specification words it
(§4.4): the text begins, with no preceding characters, with a delimiter
line `---`, followed by any body, followed by a closing delimiter line
`---`. -/
def hasFrontmatterSpec (raw : String) : Bool :=
  match linesOf raw with
  | first :: rest => decide (first = "---") && rest.any (fun l => decide (l = "---"))
  | [] => false

/-! ## ContentHasher (src/hasher.rs)

`hash(content)` is `xxh3_64(content.as_bytes())` from the `xxhash_rust`
crate.  The XXH3 64-bit algorithm (seedless variant, standard secret) is
modelled below over the UTF-8 bytes of the string, with all 64-bit
machine arithmetic carried out on `Nat` modulo `2 ^ 64`. -/

/-- UTF-8 encoding of a single character (as byte values). -/
def utf8EncodeChar (c : Char) : List Nat :=
  let n := c.toNat
  if n < 0x80 then [n]
  else if n < 0x800 then [0xC0 + n / 64, 0x80 + n % 64]
  else if n < 0x10000 then [0xE0 + n / 4096, 0x80 + (n / 64) % 64, 0x80 + n % 64]
  else [0xF0 + n / 262144, 0x80 + (n / 4096) % 64, 0x80 + (n / 64) % 64, 0x80 + n % 64]

/-- UTF-8 bytes of a string (the `content.as_bytes()` of the source). -/
def utf8Bytes (s : String) : List Nat :=
  (s.data.map utf8EncodeChar).flatten

namespace XXH3

def M64 : Nat := 2 ^ 64

def add64 (a b : Nat) : Nat := (a + b) % M64

def mul64 (a b : Nat) : Nat := (a * b) % M64

def shl64 (a k : Nat) : Nat := (a <<< k) % M64

def rotl64 (a k : Nat) : Nat := ((a <<< k) % M64) ||| (a >>> (64 - k))

/-- Read `n` bytes little-endian starting at `off` (missing bytes read 0;
the algorithm never reads past the end). -/
def readLE (bs : List Nat) (off n : Nat) : Nat :=
  (List.range n).foldr (fun i acc => bs.getD (off + i) 0 + 256 * acc) 0

def read32 (bs : List Nat) (off : Nat) : Nat := readLE bs off 4

def read64 (bs : List Nat) (off : Nat) : Nat := readLE bs off 8

/-- 64-bit byte swap. -/
def swap64 (x : Nat) : Nat :=
  (List.range 8).foldl (fun acc i => acc * 256 + ((x >>> (8 * i)) % 256)) 0

def PRIME32_1 : Nat := 0x9E3779B1
def PRIME32_2 : Nat := 0x85EBCA77
def PRIME32_3 : Nat := 0xC2B2AE3D
def PRIME64_1 : Nat := 0x9E3779B185EBCA87
def PRIME64_2 : Nat := 0xC2B2AE3D27D4EB4F
def PRIME64_3 : Nat := 0x165667B19E3779F9
def PRIME64_4 : Nat := 0x85EBCA77C2B2AE63
def PRIME64_5 : Nat := 0x27D4EB2F165667C5
def PRIME_MX1 : Nat := 0x165667919E3779F9
def PRIME_MX2 : Nat := 0x9FB21C651E98DF25

/-- The standard 192-byte XXH3 secret (`kSecret`). -/
def kSecret : List Nat :=
  [0xb8, 0xfe, 0x6c, 0x39, 0x23, 0xa4, 0x4b, 0xbe, 0x7c, 0x01, 0x81, 0x2c, 0xf7, 0x21, 0xad, 0x1c,
   0xde, 0xd4, 0x6d, 0xe9, 0x83, 0x90, 0x97, 0xdb, 0x72, 0x40, 0xa4, 0xa4, 0xb7, 0xb3, 0x67, 0x1f,
   0xcb, 0x79, 0xe6, 0x4e, 0xcc, 0xc0, 0xe5, 0x78, 0x82, 0x5a, 0xd0, 0x7d, 0xcc, 0xff, 0x72, 0x21,
   0xb8, 0x08, 0x46, 0x74, 0xf7, 0x43, 0x24, 0x8e, 0xe0, 0x35, 0x90, 0xe6, 0x81, 0x3a, 0x26, 0x4c,
   0x3c, 0x28, 0x52, 0xbb, 0x91, 0xc3, 0x00, 0xcb, 0x88, 0xd0, 0x65, 0x8b, 0x1b, 0x53, 0x2e, 0xa3,
   0x71, 0x64, 0x48, 0x97, 0xa2, 0x0d, 0xf9, 0x4e, 0x38, 0x19, 0xef, 0x46, 0xa9, 0xde, 0xac, 0xd8,
   0xa8, 0xfa, 0x76, 0x3f, 0xe3, 0x9c, 0x34, 0x3f, 0xf9, 0xdc, 0xbb, 0xc7, 0xc7, 0x0b, 0x4f, 0x1d,
   0x8a, 0x51, 0xe0, 0x4b, 0xcd, 0xb4, 0x59, 0x31, 0xc8, 0x9f, 0x7e, 0xc9, 0xd9, 0x78, 0x73, 0x64,
   0xea, 0xc5, 0xac, 0x83, 0x34, 0xd3, 0xeb, 0xc3, 0xc5, 0x81, 0xa0, 0xff, 0xfa, 0x13, 0x63, 0xeb,
   0x17, 0x0d, 0xdd, 0x51, 0xb7, 0xf0, 0xda, 0x49, 0xd3, 0x16, 0x55, 0x26, 0x29, 0xd4, 0x68, 0x9e,
   0x2b, 0x16, 0xbe, 0x58, 0x7d, 0x47, 0xa1, 0xfc, 0x8f, 0xf8, 0xb8, 0xd1, 0x7a, 0xd0, 0x31, 0xce,
   0x45, 0xcb, 0x3a, 0x8f, 0x95, 0x16, 0x04, 0x28, 0xaf, 0xd7, 0xfb, 0xca, 0xbb, 0x4b, 0x40, 0x7e]

/-- `XXH64_avalanche`. -/
def avalanche64 (h : Nat) : Nat :=
  let h := Nat.xor h (h >>> 33)
  let h := mul64 h PRIME64_2
  let h := Nat.xor h (h >>> 29)
  let h := mul64 h PRIME64_3
  Nat.xor h (h >>> 32)

/-- `XXH3_avalanche`. -/
def avalanche3 (h : Nat) : Nat :=
  let h := Nat.xor h (h >>> 37)
  let h := mul64 h PRIME_MX1
  Nat.xor h (h >>> 32)

/-- `XXH3_rrmxmx`. -/
def rrmxmx (h len : Nat) : Nat :=
  let h := Nat.xor h (Nat.xor (rotl64 h 49) (rotl64 h 24))
  let h := mul64 h PRIME_MX2
  let h := Nat.xor h (add64 (h >>> 35) len)
  let h := mul64 h PRIME_MX2
  Nat.xor h (h >>> 28)

/-- `XXH3_mul128_fold64`: full 128-bit product folded by xor. -/
def mul128_fold64 (a b : Nat) : Nat :=
  Nat.xor ((a * b) % M64) ((a * b) / M64)

/-- `XXH3_mix16B` with seed 0. -/
def mix16B (b : List Nat) (inOff secOff : Nat) : Nat :=
  mul128_fold64
    (Nat.xor (read64 b inOff) (read64 kSecret secOff))
    (Nat.xor (read64 b (inOff + 8)) (read64 kSecret (secOff + 8)))

/-- `XXH3_accumulate_512` on an 8-entry accumulator list. -/
def accum512 (b : List Nat) (inOff secOff : Nat) (acc : List Nat) : List Nat :=
  (List.range 8).foldl (fun a i =>
    let dv := read64 b (inOff + 8 * i)
    let dk := Nat.xor dv (read64 kSecret (secOff + 8 * i))
    let a := a.set (i ^^^ 1) (add64 (a.getD (i ^^^ 1) 0) dv)
    a.set i (add64 (a.getD i 0) (mul64 (dk % 2 ^ 32) (dk >>> 32)))) acc

/-- `XXH3_scrambleAcc`. -/
def scramble (acc : List Nat) : List Nat :=
  (List.range 8).map (fun i =>
    let x := acc.getD i 0
    mul64 (Nat.xor (Nat.xor x (x >>> 47)) (read64 kSecret (128 + 8 * i))) PRIME32_1)

/-- Hash for empty input. -/
def len0 : Nat :=
  avalanche64 (Nat.xor (read64 kSecret 56) (read64 kSecret 64))

/-- Hash for 1 to 3 bytes. -/
def len1to3 (b : List Nat) (len : Nat) : Nat :=
  let c1 := b.getD 0 0
  let c2 := b.getD (len / 2) 0
  let c3 := b.getD (len - 1) 0
  let combined := shl64 c1 16 ||| shl64 c2 24 ||| c3 ||| shl64 len 8
  let bitflip := Nat.xor (read32 kSecret 0) (read32 kSecret 4)
  avalanche64 (Nat.xor combined bitflip)

/-- Hash for 4 to 8 bytes. -/
def len4to8 (b : List Nat) (len : Nat) : Nat :=
  let input1 := read32 b 0
  let input2 := read32 b (len - 4)
  let bitflip := Nat.xor (read64 kSecret 8) (read64 kSecret 16)
  let input64 := add64 input2 (shl64 input1 32)
  rrmxmx (Nat.xor input64 bitflip) len

/-- Hash for 9 to 16 bytes. -/
def len9to16 (b : List Nat) (len : Nat) : Nat :=
  let bitflip1 := Nat.xor (read64 kSecret 24) (read64 kSecret 32)
  let bitflip2 := Nat.xor (read64 kSecret 40) (read64 kSecret 48)
  let inputLo := Nat.xor (read64 b 0) bitflip1
  let inputHi := Nat.xor (read64 b (len - 8)) bitflip2
  let acc := add64 (add64 (add64 len (swap64 inputLo)) inputHi)
    (mul128_fold64 inputLo inputHi)
  avalanche3 acc

/-- Hash for 17 to 128 bytes. -/
def len17to128 (b : List Nat) (len : Nat) : Nat :=
  let acc := mul64 len PRIME64_1
  let acc := if len > 96 then
      add64 acc (add64 (mix16B b 48 96) (mix16B b (len - 64) 112))
    else acc
  let acc := if len > 64 then
      add64 acc (add64 (mix16B b 32 64) (mix16B b (len - 48) 80))
    else acc
  let acc := if len > 32 then
      add64 acc (add64 (mix16B b 16 32) (mix16B b (len - 32) 48))
    else acc
  let acc := add64 acc (add64 (mix16B b 0 0) (mix16B b (len - 16) 16))
  avalanche3 acc

/-- Hash for 129 to 240 bytes. -/
def len129to240 (b : List Nat) (len : Nat) : Nat :=
  let acc := mul64 len PRIME64_1
  let acc := (List.range 8).foldl (fun a i => add64 a (mix16B b (16 * i) (16 * i))) acc
  let acc := avalanche3 acc
  let nbRounds := len / 16
  let acc := (List.range (nbRounds - 8)).foldl
    (fun a j => add64 a (mix16B b (16 * (j + 8)) (16 * j + 3))) acc
  let acc := add64 acc (mix16B b (len - 16) 119)
  avalanche3 acc

/-- Hash for more than 240 bytes (`hashLong`, default secret, 16 stripes
of 64 bytes per block). -/
def lenLong (b : List Nat) (len : Nat) : Nat :=
  let accInit : List Nat :=
    [PRIME32_3, PRIME64_1, PRIME64_2, PRIME64_3, PRIME64_4, PRIME32_2, PRIME64_5, PRIME32_1]
  let nbBlocks := (len - 1) / 1024
  let acc := (List.range nbBlocks).foldl (fun a n =>
    let a := (List.range 16).foldl (fun a s => accum512 b (1024 * n + 64 * s) (8 * s) a) a
    scramble a) accInit
  let nbStripes := ((len - 1) % 1024) / 64
  let acc := (List.range nbStripes).foldl
    (fun a s => accum512 b (1024 * nbBlocks + 64 * s) (8 * s) a) acc
  let acc := accum512 b (len - 64) 121 acc
  let result := mul64 len PRIME64_1
  let result := (List.range 4).foldl (fun r i =>
    add64 r (mul128_fold64
      (Nat.xor (acc.getD (2 * i) 0) (read64 kSecret (11 + 16 * i)))
      (Nat.xor (acc.getD (2 * i + 1) 0) (read64 kSecret (19 + 16 * i))))) result
  avalanche3 result

/-- `xxh3_64` over a byte list. -/
def hashBytes (b : List Nat) : Nat :=
  let len := b.length
  if len = 0 then len0
  else if len ≤ 3 then len1to3 b len
  else if len ≤ 8 then len4to8 b len
  else if len ≤ 16 then len9to16 b len
  else if len ≤ 128 then len17to128 b len
  else if len ≤ 240 then len129to240 b len
  else lenLong b len

end XXH3

/-- `hash` from src/hasher.rs: `xxh3_64(content.as_bytes())`. -/
def hash (content : String) : Nat :=
  XXH3.hashBytes (utf8Bytes content)

/-! ## FileLoader (src/file/mod.rs, src/errors/io.rs)

Filesystem access is embedded by passing an explicit finite filesystem: a
map from paths to entries.  A missing path is a path that cannot be
stat'ed; a `directory` entry stands for any stat-able path that is not a
regular file; a `file` entry carries `some content` when
`read_to_string` would succeed on it and `none` when reading or UTF-8
decoding would fail (e.g. binary content). -/

/-- `IoError` from src/errors/io.rs. -/
inductive IoError
  | FileDoesNotExist (p : String)
  | PathExistsButNotFile (p : String)
  | BinaryContentNotImplemented (p : String)
deriving DecidableEq

inductive FsEntry
  | file (content : Option String) (is_symlink : Bool) (modified created : Option Nat)
  | directory
deriving DecidableEq

abbrev FileSystem := List (String × FsEntry)

/-- `FileMeta` from src/file/mod.rs (`SystemTime` values are modelled as
`Nat`, each independently optional as the OS provides them). -/
structure FileMeta where
  filename : String
  is_symlink : Bool
  modified : Option Nat
  created : Option Nat
deriving DecidableEq

/-- `FileMeta::try_from<&str>` (the spec's `statPath`): `metadata(value)`
failing is a missing entry; an entry that is not a regular file yields
`PathExistsButNotFile`; otherwise the metadata is captured. -/
def FileMeta.tryFrom (fs : FileSystem) (value : String) : Except IoError FileMeta :=
  match List.lookup value fs with
  | none => .error (.FileDoesNotExist value)
  | some .directory => .error (.PathExistsButNotFile value)
  | some (.file _ sym m c) => .ok ⟨value, sym, m, c⟩

/-- Models `std::fs::read_to_string`: succeeds exactly on regular files
whose content is UTF-8 decodable (`some` in the filesystem model). -/
def read_to_string (fs : FileSystem) (p : String) : Option String :=
  match List.lookup p fs with
  | some (.file (some c) _ _ _) => some c
  | _ => none

/-- `FileWithMeta` from src/file/mod.rs (the spec's `FileContent`). -/
structure FileWithMeta where
  meta : FileMeta
  content : String
  hash : Nat
deriving DecidableEq

/-- `FileWithMeta::try_from<FileMeta>` (the spec's `loadContent`): any
read failure maps to `PathExistsButNotFile(filename)`; on success the
hash is `hash(&content)`. -/
def FileWithMeta.tryFrom (fs : FileSystem) (value : FileMeta) :
    Except IoError FileWithMeta :=
  match read_to_string fs value.filename with
  | some content => .ok ⟨value, content, Ctx.hash content⟩
  | none => .error (.PathExistsButNotFile value.filename)

/-- `FileMeta::load_content` from src/file/mod.rs. -/
def FileMeta.load_content (fs : FileSystem) (self : FileMeta) :
    Except IoError FileWithMeta :=
  FileWithMeta.tryFrom fs self

/-! ## JSON / YAML values

One value type models both `serde_json::Value` and the gray_matter `Pod`
values decoded from YAML (objects keep insertion order; the claims never
observe key order). -/

inductive Json
  | null
  | bool (b : Bool)
  | num (n : Int)
  | str (s : String)
  | arr (xs : List Json)
  | obj (kvs : List (String × Json))

/-! ## FrontmatterParser (src/md/frontmatter.rs) -/

/-- Modelled from the spec: the module `src/errors/md.rs` defining
`MarkdownError` is not among the sources; per §7 the decode failure of a
frontmatter block is the error kind **FrontmatterDecodeError** (carrying
a description of the failure), produced from the underlying
`serde_json::Error`. -/
inductive MarkdownError
  | FrontmatterDecodeError (msg : String)
deriving DecidableEq

/-- Outcome of fallible markdown code: an `Ok` value, a returned error,
or a panic (the source contains `.unwrap()` calls that can panic). -/
inductive Fallible (α : Type)
  | ok (a : α)
  | err (e : MarkdownError)
  | panic

/-- ASCII whitespace (the characters the YAML subset needs trimmed). -/
def isWsChar (c : Char) : Bool :=
  c = ' ' || c = '\t' || c = '\n' || c = '\r'

/-- Trim leading and trailing whitespace of a string. -/
def trimStr (s : String) : String :=
  ⟨((s.data.dropWhile isWsChar).reverse.dropWhile isWsChar).reverse⟩

/-- Scalar of the YAML subset handled by the model: `true`/`false`,
integers, double-quoted strings, and bare strings. -/
def yamlScalar (s : String) : Json :=
  let t := trimStr s
  if t = "true" then .bool true
  else if t = "false" then .bool false
  else if t ≠ "" && t.data.all Char.isDigit then
    .num (t.data.foldl (fun n c => n * 10 + ((c.toNat : Int) - 48)) 0)
  else match t.data with
    | '"' :: rest =>
      if rest ≠ [] && rest.getLast? = some '"' then .str ⟨rest.dropLast⟩
      else .str t
    | _ => .str t

/-- Models the YAML engine of gray_matter on the key/value subset the
program feeds it: each non-blank line `key: value` becomes a mapping
entry; a block without such lines decodes to its scalar value. -/
def yamlParse (block : String) : Json :=
  let ls := (linesOf block).filter (fun l => trimStr l ≠ "")
  if ls ≠ [] && ls.all (fun l => l.data.any (fun c => c = ':')) then
    .obj (ls.map (fun l =>
      let k := l.data.takeWhile (fun c => decide (c ≠ ':'))
      let v := (l.data.dropWhile (fun c => decide (c ≠ ':'))).drop 1
      (trimStr (String.mk k), yamlScalar ⟨v⟩)))
  else yamlScalar block

/-- Characters strictly before the first occurrence of the delimiter
run `---`, if the run occurs at all. -/
def splitAtTripleDash : List Char → Option (List Char)
  | [] => none
  | c :: rest =>
    match c, rest with
    | '-', '-' :: '-' :: _ => some []
    | _, _ => (splitAtTripleDash rest).map (c :: ·)

/-- Models `Matter::<YAML>::new().parse(value).data` from the
gray_matter crate: when the input starts with the `---` delimiter, the
text up to the next `---` is the front matter; `data` is `none` when no
front matter is found or the block is empty, and otherwise the YAML
decoding of the block. -/
def matterData (value : String) : Option Json :=
  match value.data with
  | '-' :: '-' :: '-' :: rest =>
    match splitAtTripleDash rest with
    | none => none
    | some block =>
      let b := trimStr (String.mk block)
      if b = "" then none else some (yamlParse b)
  | _ => none

/-- `Frontmatter` from src/md/frontmatter.rs: typed optional fields plus
the flattened `other` map for unrecognized keys. -/
structure Frontmatter where
  title : Option String
  aliases : Option (List String)
  tags : Option (List String)
  description : Option String
  subject : Option String
  category : Option String
  name : Option String
  excerpt : Option String
  image : Option String
  icon : Option String
  layout : Option String
  requires_auth : Option Bool
  other : List (String × Json)

/-- The all-`None` frontmatter built by `Frontmatter::new(None)`. -/
def Frontmatter.empty : Frontmatter :=
  ⟨none, none, none, none, none, none, none, none, none, none, none, none, []⟩

/-- One step of serde's struct deserialization: assign a (camelCase) key
to its typed field, checking the declared type with no coercion; `null`
deserializes to `None` for an optional field; unrecognized keys go into
`other`. -/
def Frontmatter.setField (fm : Frontmatter) (k : String) (v : Json) :
    Except MarkdownError Frontmatter :=
  let strField (set : Option String → Frontmatter) :=
    match v with
    | .null => Except.ok (set none)
    | .str s => Except.ok (set (some s))
    | _ => Except.error (.FrontmatterDecodeError ("invalid type for " ++ k))
  let strListField (set : Option (List String) → Frontmatter) :=
    match v with
    | .null => Except.ok (set none)
    | .arr xs =>
      if xs.all (fun x => match x with | .str _ => true | _ => false) then
        Except.ok (set (some (xs.filterMap
          (fun x => match x with | .str s => some s | _ => none))))
      else Except.error (.FrontmatterDecodeError ("invalid type for " ++ k))
    | _ => Except.error (.FrontmatterDecodeError ("invalid type for " ++ k))
  if k = "title" then strField (fun o => { fm with title := o })
  else if k = "aliases" then strListField (fun o => { fm with aliases := o })
  else if k = "tags" then strListField (fun o => { fm with tags := o })
  else if k = "description" then strField (fun o => { fm with description := o })
  else if k = "subject" then strField (fun o => { fm with subject := o })
  else if k = "category" then strField (fun o => { fm with category := o })
  else if k = "name" then strField (fun o => { fm with name := o })
  else if k = "excerpt" then strField (fun o => { fm with excerpt := o })
  else if k = "image" then strField (fun o => { fm with image := o })
  else if k = "icon" then strField (fun o => { fm with icon := o })
  else if k = "layout" then strField (fun o => { fm with layout := o })
  else if k = "requiresAuth" then
    match v with
    | .null => Except.ok { fm with requires_auth := none }
    | .bool b => Except.ok { fm with requires_auth := some b }
    | _ => Except.error (.FrontmatterDecodeError ("invalid type for " ++ k))
  else Except.ok { fm with other := fm.other ++ [(k, v)] }

/-- `Frontmatter::new` (src/md/frontmatter.rs): `None` yields the empty
frontmatter; `Some(json)` is `serde_json::from_value`, which requires a
map and checks every recognized key's declared type, propagating the
decode failure as a `MarkdownError`. -/
def Frontmatter.new (json : Option Json) : Except MarkdownError Frontmatter :=
  match json with
  | none => .ok Frontmatter.empty
  | some (.obj kvs) =>
    kvs.foldlM (fun fm kv => fm.setField kv.1 kv.2) Frontmatter.empty
  | some _ => .error (.FrontmatterDecodeError "invalid type: not a map")

/-- `Frontmatter::try_from<String>` (src/md/frontmatter.rs):
`Frontmatter::new(matter.parse(&value).data.unwrap().deserialize().unwrap())`.
The first `.unwrap()` is on gray_matter's `Option` data and panics when
no (or an empty) front-matter block was found; the `.deserialize()` to a
JSON value is modelled as infallible on the values produced here. -/
def Frontmatter.tryFrom (value : String) : Fallible Frontmatter :=
  match matterData value with
  | none => .panic
  | some j =>
    match Frontmatter.new (some j) with
    | .ok fm => .ok fm
    | .error e => .err e

/-! ## Prose (src/md/prose.rs) -/

structure Prose where
  content : String
  hash : Nat
deriving DecidableEq

/-- `Prose::new` (src/md/prose.rs). -/
def Prose.new (content : String) : Prose :=
  ⟨content, Ctx.hash content⟩

/-- `From<String> for Prose` (src/md/prose.rs); `From<&str>` delegates
to it. -/
def Prose.fromString (content : String) : Prose :=
  ⟨content, Ctx.hash content⟩

/-! ## MarkdownSplitter and MarkdownDocument (src/md/markdown.rs) -/

/-- `split_fm_from_prose` (src/md/markdown.rs). -/
def split_fm_from_prose (raw_content : String) :
    Fallible (Prose × Option Frontmatter) :=
  if has_frontmatter raw_content then
    match Frontmatter.tryFrom raw_content with
    | .panic => .panic
    | .err e => .err e
    | .ok fm => .ok (Prose.fromString (exclude_frontmatter raw_content), some fm)
  else
    .ok (Prose.fromString (exclude_frontmatter raw_content), none)

structure MarkdownStructure where
  h1 : List String
  has_multiple_h1 : Bool
  h2 : List String
  h3 : List String

/-- `MarkdownDoc` from src/md/markdown.rs (the source's `structure`
field is named `mdStructure` here since `structure` is a Lean keyword). -/
structure MarkdownDoc where
  has_frontmatter : Bool
  fm : Option Frontmatter
  prose : Prose
  mdStructure : Option MarkdownStructure
  file : Option FileMeta

/-- `TryFrom<&str> for MarkdownDoc` (src/md/markdown.rs). -/
def MarkdownDoc.tryFromStr (raw_content : String) : Fallible MarkdownDoc :=
  match split_fm_from_prose raw_content with
  | .panic => .panic
  | .err e => .err e
  | .ok (prose, fm) =>
    .ok ⟨Ctx.has_frontmatter raw_content, fm, prose, none, none⟩

/-- `TryFrom<FileWithMeta> for MarkdownDoc` (src/md/markdown.rs): splits
the file's content and keeps only the metadata of the file. -/
def MarkdownDoc.tryFromFile (value : FileWithMeta) : Fallible MarkdownDoc :=
  match split_fm_from_prose value.content with
  | .panic => .panic
  | .err e => .err e
  | .ok (prose, fm) =>
    .ok ⟨Ctx.has_frontmatter value.content, fm, prose, none, some value.meta⟩

/-! ## Serialization to JSON (serde derive + `json!`) -/

def optNatJson : Option Nat → Json
  | none => .null
  | some n => .num n

/-- serde serialization of `FileMeta` (timestamps modelled as numbers). -/
def FileMeta.toJson (m : FileMeta) : Json :=
  .obj [("filename", .str m.filename), ("is_symlink", .bool m.is_symlink),
        ("modified", optNatJson m.modified), ("created", optNatJson m.created)]

/-- serde serialization of `Prose`. -/
def Prose.toJson (p : Prose) : Json :=
  .obj [("content", .str p.content), ("hash", .num p.hash)]

/-- serde serialization of `Frontmatter`: camelCase keys, `None` fields
skipped, the `other` map flattened alongside. -/
def Frontmatter.toJson (fm : Frontmatter) : Json :=
  let strF (k : String) : Option String → List (String × Json)
    | none => []
    | some s => [(k, .str s)]
  let listF (k : String) : Option (List String) → List (String × Json)
    | none => []
    | some xs => [(k, .arr (xs.map .str))]
  .obj (strF "title" fm.title ++ listF "aliases" fm.aliases ++
    listF "tags" fm.tags ++ strF "description" fm.description ++
    strF "subject" fm.subject ++ strF "category" fm.category ++
    strF "name" fm.name ++ strF "excerpt" fm.excerpt ++
    strF "image" fm.image ++ strF "icon" fm.icon ++
    strF "layout" fm.layout ++
    (match fm.requires_auth with
     | none => []
     | some b => [("requiresAuth", .bool b)]) ++ fm.other)

def MarkdownStructure.toJson (s : MarkdownStructure) : Json :=
  .obj [("h1", .arr (s.h1.map .str)), ("has_multiple_h1", .bool s.has_multiple_h1),
        ("h2", .arr (s.h2.map .str)), ("h3", .arr (s.h3.map .str))]

/-- serde serialization of `MarkdownDoc` (the value of `json!(md)`). -/
def MarkdownDoc.toJson (d : MarkdownDoc) : Json :=
  .obj [("has_frontmatter", .bool d.has_frontmatter),
        ("fm", match d.fm with | none => .null | some f => f.toJson),
        ("prose", d.prose.toJson),
        ("structure", match d.mdStructure with
          | none => .null
          | some s => s.toJson),
        ("file", match d.file with | none => .null | some m => m.toJson)]

/-! ## Fingerprinter (src/main.rs) -/

/-- `Fingerprint` enum from src/main.rs. -/
inductive Fingerprint
  | MarkdownFile
  | HtmlFile
  | Unknown
deriving DecidableEq

/-- `Target` from src/main.rs. -/
structure Target where
  user_input : String
  kind : Fingerprint

/-- `Regex::new(r"\w\.md$").is_match(input)`, parameterized by the
word-character classifier `w` standing for the regex crate's `\w` class:
the input ends in `.md` immediately preceded by a character of the
class.  The crate's `\w` is Unicode-aware
(`[\p{Alphabetic}\p{M}\p{Nd}\p{Pc}\p{Join_Control}]`), external table
data that no finite definition here reproduces; the matchers therefore
take the classifier as a parameter, and every universally quantified
statement below about them holds for *every* classifier — in particular
for the crate's. -/
def matchesMdW (w : Char → Bool) (s : String) : Bool :=
  match s.data.reverse with
  | 'd' :: 'm' :: '.' :: c :: _ => w c
  | _ => false

/-- `Regex::new(r"\w\.htm(l){0,1}$").is_match(input)`, parameterized by
the word-character classifier as in `matchesMdW`: the input ends in
`.htm` or `.html` immediately preceded by a character of the class. -/
def matchesHtmlW (w : Char → Bool) (s : String) : Bool :=
  match s.data.reverse with
  | 'l' :: 'm' :: 't' :: 'h' :: '.' :: c :: _ => w c
  | 'm' :: 't' :: 'h' :: '.' :: c :: _ => w c
  | _ => false

/-- `fingerprint(input)` from src/main.rs, parameterized by the
word-character classifier: the `MATCHERS` table is scanned in
declaration order (`MarkdownFile` first, then `HtmlFile`) and the first
match wins; no match yields `Unknown`.  The input string is kept
verbatim as `user_input`. -/
def fingerprintW (w : Char → Bool) (input : String) : Target :=
  if matchesMdW w input then ⟨input, .MarkdownFile⟩
  else if matchesHtmlW w input then ⟨input, .HtmlFile⟩
  else ⟨input, .Unknown⟩

/-- The regex crate's `\w` class restricted to the ASCII range, where it
is exactly the alphanumerics and the underscore (`\p{Alphabetic}` ∩
ASCII = the letters, `\p{Nd}` ∩ ASCII = the digits, `\p{Pc}` ∩ ASCII =
the underscore, and `\p{M}`/Join_Control have no ASCII members).  Used
to instantiate the classifier when evaluating the model at concrete
inputs, all of which are ASCII, where this restriction is exact. -/
def isWordChar (c : Char) : Bool := c.isAlphanum || decide (c = '_')

/-- `Regex::new(r"\w\.md$").is_match(input)` instantiated at the ASCII
restriction of `\w`; exact on ASCII inputs. -/
def matchesMd : String → Bool := matchesMdW isWordChar

/-- `Regex::new(r"\w\.htm(l){0,1}$").is_match(input)` instantiated at
the ASCII restriction of `\w`; exact on ASCII inputs. -/
def matchesHtml : String → Bool := matchesHtmlW isWordChar

/-- `fingerprint(input)` from src/main.rs instantiated at the ASCII
restriction of `\w`; exact on ASCII inputs. -/
def fingerprint : String → Target := fingerprintW isWordChar

/-! ## Dispatcher (src/main.rs) -/

/-- Outcome of one target's handler (`Result<Value>` in the source, plus
a constructor for a panic escaping the handler). -/
inductive POutcome
  | ok (v : Json)
  | err
  | panic

def POutcome.isPanic : POutcome → Bool
  | .panic => true
  | _ => false

def POutcome.getOk : POutcome → Option Json
  | .ok v => some v
  | _ => none

/-- `html_file` (src/main.rs): logs and returns `Ok(json!("\x7b\x7d"))`,
i.e. the JSON *string* containing an open and a close brace. -/
def html_file (_target : Target) : POutcome := .ok (.str "\x7b\x7d")

/-- `md_file` (src/md/reporting.rs): stat the path, load the content,
assemble the `MarkdownDoc`, and serialize it; every `?` propagates the
failure to the caller as an error result. -/
def md_file (fs : FileSystem) (target : Target) : POutcome :=
  match FileMeta.tryFrom fs target.user_input with
  | .error _ => .err
  | .ok file =>
    match FileWithMeta.tryFrom fs file with
    | .error _ => .err
    | .ok file2 =>
      match MarkdownDoc.tryFromFile file2 with
      | .panic => .panic
      | .err _ => .err
      | .ok md => .ok md.toJson

/-- The per-target dispatch inside `process_known_fingerprints`
(src/main.rs): `HtmlFile → html_file`, `MarkdownFile → md_file`,
`Unknown → Ok(json!(\x7b\x7d))` — an empty JSON *object*. -/
def processTarget (fs : FileSystem) (t : Target) : POutcome :=
  match t.kind with
  | .HtmlFile => html_file t
  | .MarkdownFile => md_file fs t
  | .Unknown => .ok (.obj [])

/-- Overall outcome of `process_known_fingerprints`: the source function
itself always returns `Ok`, but a panic in a handler aborts it. -/
inductive ProcOutcome
  | ok (v : Json)
  | panic

/-- `process_known_fingerprints` (src/main.rs): maps every target to its
handler's result, drops the error results, and aggregates the `Ok`
values in order. -/
def process_known_fingerprints (fs : FileSystem) (targets : List Target) :
    ProcOutcome :=
  let results := targets.map (processTarget fs)
  if results.any POutcome.isPanic then .panic
  else .ok (.arr (results.filterMap POutcome.getOk))

/-- `warn_about_unknown_fingerprints` (src/main.rs): emits a warning per
`Unknown` target and returns whether any target was `Unknown`. -/
def warn_about_unknown_fingerprints (targets : List Target) : Bool :=
  targets.any (fun t => match t.kind with | .Unknown => true | _ => false)

/-- Filesystem for the C5 witness: two valid markdown files. -/
def fsC5 : FileSystem :=
  [("a.md", .file (some "# A") false none none),
   ("b.md", .file (some "# B") false none none)]

/-- Targets for the C5 witness: two valid markdown files and one
nonexistent path, classified by `fingerprint`. -/
def tsC5 : List Target :=
  [fingerprint "a.md", fingerprint "missing.md", fingerprint "b.md"]

/-- Whether the head of the (reversed remainder) list is a word
character under the classifier `w`; `false` on the empty list (i.e.
nothing precedes the extension). -/
def headIsWordCharW (w : Char → Bool) : List Char → Bool
  | c :: _ => w c
  | [] => false

/-! ## Helper lemmas -/

theorem dropWhile_append_of_all {α : Type} {p : α → Bool} {l₁ l₂ : List α}
    (h : ∀ c ∈ l₁, p c = true) :
    (l₁ ++ l₂).dropWhile p = l₂.dropWhile p := by
  induction l₁ with
  | nil => rfl
  | cons a l ih =>
    have ha : p a = true := h a (List.mem_cons_self a l)
    simp only [List.cons_append, List.dropWhile_cons, ha, if_true]
    exact ih (fun c hc => h c (List.mem_cons_of_mem a hc))

/-! ## Claims -/

/-- C1 (counterexample): the string `"---\na\nb\n---\n"` begins, with no
preceding characters, with a delimiter line `---`, followed by a body,
followed by a closing delimiter line `---` (as `hasFrontmatterSpec`
checks), yet `has_frontmatter` returns `false` on it — the claimed
"any body" does not hold for bodies containing a newline. -/
theorem C1_counterexample :
    hasFrontmatterSpec "---\na\nb\n---\n" = true ∧
    has_frontmatter "---\na\nb\n---\n" = false :=
  ⟨by decide, by decide⟩

/-- C1 (amended): `has_frontmatter raw` returns true iff raw begins,
with no preceding characters, with a delimiter line `---`, followed by a
*single-line* body (a body containing no newline), followed by `\n---`;
in particular `has_frontmatter "# Hello"` is false. -/
theorem C1_amended :
    (∀ raw : String, has_frontmatter raw = true ↔
      ∃ mid tail : List Char, (∀ c ∈ mid, c ≠ '\n') ∧
        raw.data = '-' :: '-' :: '-' :: '\n' ::
          (mid ++ '\n' :: '-' :: '-' :: '-' :: tail)) ∧
    has_frontmatter "# Hello" = false := by
  refine ⟨fun raw => ⟨fun h => ?_, fun h => ?_⟩, by decide⟩
  · unfold has_frontmatter at h
    rw [Bool.and_eq_true, decide_eq_true_eq, decide_eq_true_eq] at h
    obtain ⟨h1, h2⟩ := h
    refine ⟨(raw.data.drop 4).takeWhile notNewline,
      ((raw.data.drop 4).dropWhile notNewline).drop 4, ?_, ?_⟩
    · intro c hc
      have hc' := List.mem_takeWhile_imp hc
      simpa [notNewline] using hc'
    · calc raw.data
          = raw.data.take 4 ++ raw.data.drop 4 :=
            (List.take_append_drop 4 raw.data).symm
        _ = ['-', '-', '-', '\n'] ++ raw.data.drop 4 := by rw [h1]
        _ = ['-', '-', '-', '\n'] ++
              ((raw.data.drop 4).takeWhile notNewline ++
                (raw.data.drop 4).dropWhile notNewline) := by
            rw [List.takeWhile_append_dropWhile]
        _ = ['-', '-', '-', '\n'] ++
              ((raw.data.drop 4).takeWhile notNewline ++
                (['\n', '-', '-', '-'] ++
                  ((raw.data.drop 4).dropWhile notNewline).drop 4)) := by
            conv_lhs =>
              rw [← List.take_append_drop 4
                ((raw.data.drop 4).dropWhile notNewline), h2]
        _ = '-' :: '-' :: '-' :: '\n' ::
              ((raw.data.drop 4).takeWhile notNewline ++ '\n' :: '-' :: '-' :: '-' ::
                ((raw.data.drop 4).dropWhile notNewline).drop 4) := rfl
  · obtain ⟨mid, tail, hmid, hdata⟩ := h
    have hmid' : ∀ c ∈ mid, notNewline c = true := fun c hc => by
      simpa [notNewline] using hmid c hc
    unfold has_frontmatter
    rw [hdata, Bool.and_eq_true, decide_eq_true_eq, decide_eq_true_eq]
    refine ⟨rfl, ?_⟩
    have hdw : (mid ++ '\n' :: '-' :: '-' :: '-' :: tail).dropWhile notNewline =
        ('\n' :: '-' :: '-' :: '-' :: tail).dropWhile notNewline :=
      dropWhile_append_of_all hmid'
    show ((mid ++ '\n' :: '-' :: '-' :: '-' :: tail).dropWhile notNewline).take 4 = _
    rw [hdw]
    rfl

/-- C1 (witness): the amended rule applied to `"---\nx\n---"`, whose
body is the single newline-free line `x`. -/
theorem C1_amended_witness : has_frontmatter "---\nx\n---" = true :=
  (C1_amended.1 "---\nx\n---").mpr ⟨['x'], [], by decide, by decide⟩

/-- C2: `exclude_frontmatter` is the identity on *every* input, because
the `MD_PARTS` pattern `^---.*---(.*)` cannot span the newline after the
opening delimiter and so never matches an input accepted by
`has_frontmatter`.  At the failing input `"---\ntitle: hi\n---\nbody"`
the function returns its input unchanged (frontmatter still present)
instead of the content after the closing delimiter, contradicting both
the claimed identity-iff-no-frontmatter equivalence and the source's own
doc comment. -/
theorem C2_exclude_frontmatter_is_identity :
    (∀ raw : String, exclude_frontmatter raw = raw) ∧
    has_frontmatter "---\ntitle: hi\n---\nbody" = true ∧
    exclude_frontmatter "---\ntitle: hi\n---\nbody" = "---\ntitle: hi\n---\nbody" ∧
    has_frontmatter (exclude_frontmatter "---\ntitle: hi\n---\nbody") = true := by
  have key : ∀ raw : String, exclude_frontmatter raw = raw := by
    intro raw
    unfold exclude_frontmatter
    split
    next h =>
      unfold has_frontmatter at h
      rw [Bool.and_eq_true, decide_eq_true_eq, decide_eq_true_eq] at h
      obtain ⟨h1, _⟩ := h
      have e : raw.data = ['-', '-', '-', '\n'] ++ raw.data.drop 4 := by
        conv_lhs => rw [← List.take_append_drop 4 raw.data]
        rw [h1]
      unfold md_parts_replace
      have hd3 : raw.data.take 3 = ['-', '-', '-'] := by
        rw [e]
        rfl
      rw [if_pos hd3]
      have hdrop : raw.data.drop 3 = '\n' :: raw.data.drop 4 := by
        conv_lhs => rw [e]
        rfl
      rw [hdrop]
      have htw : (('\n' : Char) :: raw.data.drop 4).takeWhile notNewline = [] := by
        simp [List.takeWhile_cons, notNewline]
      rw [htw]
      rfl
    next _ => rfl
  exact ⟨key, by decide, key _, by decide⟩

/-- C3: at the input `"---\n\n---"` — a leading delimited block that is
not valid structured key/value data (it is empty) — `has_frontmatter`
holds, yet `split_fm_from_prose` panics (via the `.unwrap()` on
gray_matter's absent `data` inside `Frontmatter::try_from`) instead of
propagating a `FrontmatterDecodeError`. -/
theorem C3_split_panics_on_invalid_block :
    has_frontmatter "---\n\n---" = true ∧
    split_fm_from_prose "---\n\n---" = Fallible.panic :=
  ⟨by decide, rfl⟩

/-- C4 (counterexample): a batch consisting of the single
Unknown-classified target `"image.png"` does *not* produce an empty
aggregate — the Unknown target contributes an empty-object entry to the
output of `process_known_fingerprints`, so it is not excluded from the
aggregated output. -/
theorem C4_counterexample :
    (fingerprint "image.png").kind = Fingerprint.Unknown ∧
    process_known_fingerprints [] [fingerprint "image.png"] =
      ProcOutcome.ok (Json.arr [Json.obj []]) :=
  ⟨rfl, rfl⟩

/-- C4 (amended): an Unknown-classified target never aborts the batch
and is never an error — its handler entry is `Ok` — and it is reported
as a warning (`warn_about_unknown_fingerprints` is true); but rather
than contributing no entry, it contributes exactly one empty-object
entry to the aggregated output, in its batch position. -/
theorem C4_amended (fs : FileSystem) (ts₁ ts₂ : List Target) (s : String)
    (h₁ : ∀ t ∈ ts₁, (processTarget fs t).isPanic = false)
    (h₂ : ∀ t ∈ ts₂, (processTarget fs t).isPanic = false) :
    processTarget fs ⟨s, Fingerprint.Unknown⟩ = POutcome.ok (Json.obj []) ∧
    process_known_fingerprints fs (ts₁ ++ ⟨s, Fingerprint.Unknown⟩ :: ts₂) =
      ProcOutcome.ok (Json.arr
        ((ts₁.map (processTarget fs)).filterMap POutcome.getOk ++
          Json.obj [] :: (ts₂.map (processTarget fs)).filterMap POutcome.getOk)) ∧
    warn_about_unknown_fingerprints (ts₁ ++ ⟨s, Fingerprint.Unknown⟩ :: ts₂) = true := by
  have a₁ : (ts₁.map (processTarget fs)).any POutcome.isPanic = false :=
    List.any_eq_false.mpr (by
      intro x hx
      obtain ⟨t, ht, rfl⟩ := List.mem_map.mp hx
      simp [h₁ t ht])
  have a₂ : (ts₂.map (processTarget fs)).any POutcome.isPanic = false :=
    List.any_eq_false.mpr (by
      intro x hx
      obtain ⟨t, ht, rfl⟩ := List.mem_map.mp hx
      simp [h₂ t ht])
  refine ⟨rfl, ?_, ?_⟩
  · have hu : processTarget fs ⟨s, Fingerprint.Unknown⟩ = POutcome.ok (Json.obj []) := rfl
    simp only [process_known_fingerprints, List.map_append, List.map_cons, hu,
      List.any_append, List.any_cons, a₁, a₂, POutcome.isPanic, Bool.or_false,
      Bool.false_or]
    simp [List.filterMap_append, List.filterMap_cons, POutcome.getOk]
  · simp [warn_about_unknown_fingerprints, List.any_append, List.any_cons]

/-- C4 (witness): the amended statement at the concrete one-target batch
`["image.png" as Unknown]` over the empty filesystem. -/
theorem C4_amended_witness :
    process_known_fingerprints [] [⟨"image.png", Fingerprint.Unknown⟩] =
      ProcOutcome.ok (Json.arr [Json.obj []]) ∧
    warn_about_unknown_fingerprints [⟨"image.png", Fingerprint.Unknown⟩] = true := by
  have h := C4_amended [] [] [] "image.png" (by simp) (by simp)
  exact ⟨by simpa using h.2.1, by simpa using h.2.2⟩

/-- C5: `process_known_fingerprints` isolates per-target failure: as
long as no handler panics, the batch is never aborted — the result is
`Ok` of the aggregate that keeps exactly the successful handler results,
in the input's relative order, with every failing result dropped. -/
theorem C5_process_isolates_failures (fs : FileSystem) (ts : List Target)
    (h : ∀ t ∈ ts, (processTarget fs t).isPanic = false) :
    process_known_fingerprints fs ts =
      ProcOutcome.ok (Json.arr
        ((ts.map (processTarget fs)).filterMap POutcome.getOk)) := by
  have a : (ts.map (processTarget fs)).any POutcome.isPanic = false :=
    List.any_eq_false.mpr (by
      intro x hx
      obtain ⟨t, ht, rfl⟩ := List.mem_map.mp hx
      simp [h t ht])
  simp [process_known_fingerprints, a]

/-- C5 (witness): over a batch of two valid markdown files and one
nonexistent path, the nonexistent path's handler fails with an error,
the batch is not aborted, and the aggregate holds exactly the two
successful results in the original order. -/
theorem C5_witness :
    md_file fsC5 (fingerprint "missing.md") = POutcome.err ∧
    process_known_fingerprints fsC5 tsC5 =
      ProcOutcome.ok (Json.arr
        ((tsC5.map (processTarget fsC5)).filterMap POutcome.getOk)) ∧
    ((tsC5.map (processTarget fsC5)).filterMap POutcome.getOk).length = 2 :=
  ⟨rfl, C5_process_isolates_failures fsC5 tsC5 (by decide), by decide⟩

/-- C6 (counterexample): the path `".md"` ends with `.md` yet is
classified `Unknown`, because the `\w\.md$` pattern also requires a word
character before the extension. -/
theorem C6_counterexample :
    ".md".data = ['.', 'm', 'd'] ∧
    (fingerprint ".md").kind = Fingerprint.Unknown :=
  ⟨rfl, rfl⟩

/-- C6 (amended): classification evaluates the fixed priority-ordered
rule list with first-match-wins: every path ending in `.md` *with a word
character immediately before the extension* is Markdown, every path
ending in `.htm` or `.html` with a word character immediately before the
extension is Html, a string matching no rule is Unknown, and in
particular `"notes.md"` is Markdown, `"page.html"` and `"page.htm"` are
Html, and `"image.png"` is Unknown.  The universally quantified parts
are proved for *every* word-character classifier `w`, so in particular
for the regex crate's Unicode-aware `\w`; the concrete examples are
ASCII, where the instantiated classifier is exact. -/
theorem C6_amended :
    (∀ (w : Char → Bool) (s : String) (c : Char), w c = true →
      (fingerprintW w (s ++ ⟨[c]⟩ ++ ".md")).kind = Fingerprint.MarkdownFile ∧
      (fingerprintW w (s ++ ⟨[c]⟩ ++ ".html")).kind = Fingerprint.HtmlFile ∧
      (fingerprintW w (s ++ ⟨[c]⟩ ++ ".htm")).kind = Fingerprint.HtmlFile) ∧
    (∀ (w : Char → Bool) (s : String), matchesMdW w s = false →
      matchesHtmlW w s = false → (fingerprintW w s).kind = Fingerprint.Unknown) ∧
    (fingerprint "notes.md").kind = Fingerprint.MarkdownFile ∧
    (fingerprint "page.html").kind = Fingerprint.HtmlFile ∧
    (fingerprint "page.htm").kind = Fingerprint.HtmlFile ∧
    (fingerprint "image.png").kind = Fingerprint.Unknown := by
  refine ⟨?_, ?_, by decide, by decide, by decide, by decide⟩
  · intro w s c hc
    refine ⟨?_, ?_, ?_⟩
    · have e : (s ++ ⟨[c]⟩ ++ ".md").data.reverse =
          'd' :: 'm' :: '.' :: c :: s.data.reverse := by
        show ((s.data ++ [c]) ++ ['.', 'm', 'd']).reverse = _
        simp
      have hm : matchesMdW w (s ++ ⟨[c]⟩ ++ ".md") = true := by
        unfold matchesMdW
        rw [e]
        exact hc
      simp [fingerprintW, hm]
    · have e : (s ++ ⟨[c]⟩ ++ ".html").data.reverse =
          'l' :: 'm' :: 't' :: 'h' :: '.' :: c :: s.data.reverse := by
        show ((s.data ++ [c]) ++ ['.', 'h', 't', 'm', 'l']).reverse = _
        simp
      have hm : matchesMdW w (s ++ ⟨[c]⟩ ++ ".html") = false := by
        unfold matchesMdW
        rw [e]
        rfl
      have hh : matchesHtmlW w (s ++ ⟨[c]⟩ ++ ".html") = true := by
        unfold matchesHtmlW
        rw [e]
        exact hc
      simp [fingerprintW, hm, hh]
    · have e : (s ++ ⟨[c]⟩ ++ ".htm").data.reverse =
          'm' :: 't' :: 'h' :: '.' :: c :: s.data.reverse := by
        show ((s.data ++ [c]) ++ ['.', 'h', 't', 'm']).reverse = _
        simp
      have hm : matchesMdW w (s ++ ⟨[c]⟩ ++ ".htm") = false := by
        unfold matchesMdW
        rw [e]
        rfl
      have hh : matchesHtmlW w (s ++ ⟨[c]⟩ ++ ".htm") = true := by
        unfold matchesHtmlW
        rw [e]
        exact hc
      simp [fingerprintW, hm, hh]
  · intro w s h1 h2
    simp [fingerprintW, h1, h2]

/-- C6 (witness): the amended rules applied at the word character `s`
and base `"note"`, with the classifier instantiated at the ASCII
restriction of `\w` (exact there). -/
theorem C6_amended_witness :
    (fingerprint ("note" ++ ⟨['s']⟩ ++ ".md")).kind = Fingerprint.MarkdownFile ∧
    (fingerprint ("note" ++ ⟨['s']⟩ ++ ".html")).kind = Fingerprint.HtmlFile ∧
    (fingerprint ("note" ++ ⟨['s']⟩ ++ ".htm")).kind = Fingerprint.HtmlFile :=
  C6_amended.1 isWordChar "note" 's' (by decide)

/-- C7: on every input without frontmatter, `split_fm_from_prose`
succeeds with no frontmatter and a `Prose` whose content is the raw
input itself. -/
theorem C7_split_without_frontmatter (raw : String)
    (h : has_frontmatter raw = false) :
    split_fm_from_prose raw = Fallible.ok (Prose.fromString raw, none) ∧
    (Prose.fromString raw).content = raw := by
  constructor
  · simp [split_fm_from_prose, exclude_frontmatter, h]
  · rfl

/-- C7 (witness): `split("plain text")` yields the prose
`"plain text"` and no frontmatter. -/
theorem C7_witness :
    split_fm_from_prose "plain text" =
      Fallible.ok (Prose.fromString "plain text", none) ∧
    (Prose.fromString "plain text").content = "plain text" :=
  C7_split_without_frontmatter "plain text" (by decide)

/-- C8: `statPath` (`FileMeta::try_from`) fails with `FileDoesNotExist`
on every path that cannot be stat'ed, fails with `PathExistsButNotFile`
on every stat-able path that is not a regular file, and succeeds on
regular files; `loadContent` (`FileWithMeta::try_from`) fails with
`PathExistsButNotFile` on any read or decode failure, and on success
returns a `FileWithMeta` whose hash is `hash` of the content read. -/
theorem C8_stat_and_load :
    (∀ (fs : FileSystem) (path : String),
      (List.lookup path fs = none →
        FileMeta.tryFrom fs path = .error (.FileDoesNotExist path)) ∧
      (List.lookup path fs = some FsEntry.directory →
        FileMeta.tryFrom fs path = .error (.PathExistsButNotFile path)) ∧
      (∀ c sym m cr, List.lookup path fs = some (.file c sym m cr) →
        FileMeta.tryFrom fs path = .ok ⟨path, sym, m, cr⟩)) ∧
    (∀ (fs : FileSystem) (meta : FileMeta),
      (read_to_string fs meta.filename = none →
        FileWithMeta.tryFrom fs meta = .error (.PathExistsButNotFile meta.filename)) ∧
      (∀ c, read_to_string fs meta.filename = some c →
        FileWithMeta.tryFrom fs meta = .ok ⟨meta, c, hash c⟩)) := by
  constructor
  · intro fs path
    refine ⟨fun h => ?_, fun h => ?_, fun c sym m cr h => ?_⟩ <;>
      · unfold FileMeta.tryFrom
        rw [h]
  · intro fs meta
    refine ⟨fun h => ?_, fun c h => ?_⟩ <;>
      · unfold FileWithMeta.tryFrom
        rw [h]

/-- C8 (witness): a missing path fails with `FileDoesNotExist`, a
directory path fails with `PathExistsButNotFile`, and loading a readable
file yields its content with its hash. -/
theorem C8_witness :
    FileMeta.tryFrom [("d", FsEntry.directory)] "missing" =
      .error (.FileDoesNotExist "missing") ∧
    FileMeta.tryFrom [("d", FsEntry.directory)] "d" =
      .error (.PathExistsButNotFile "d") ∧
    FileWithMeta.tryFrom [("a.md", FsEntry.file (some "# A") false none none)]
      ⟨"a.md", false, none, none⟩ =
      .ok ⟨⟨"a.md", false, none, none⟩, "# A", hash "# A"⟩ :=
  ⟨(C8_stat_and_load.1 _ "missing").1 rfl,
   (C8_stat_and_load.1 _ "d").2.1 rfl,
   (C8_stat_and_load.2 _ ⟨"a.md", false, none, none⟩).2 "# A" rfl⟩

/-- C9: every `Prose` and every `FileWithMeta` produced by any
construction in the program carries as its `hash` field the digest of
its `content` field as captured at construction (in this pure embedding
no operation mutates a constructed value afterward). -/
theorem C9_hash_invariant :
    (∀ c : String, (Prose.new c).hash = hash c ∧ (Prose.fromString c).hash = hash c) ∧
    (∀ (fs : FileSystem) (m : FileMeta) (f : FileWithMeta),
      FileWithMeta.tryFrom fs m = .ok f → f.hash = hash f.content) ∧
    (∀ (raw : String) (p : Prose) (ofm : Option Frontmatter),
      split_fm_from_prose raw = .ok (p, ofm) → p.hash = hash p.content) ∧
    (∀ (raw : String) (d : MarkdownDoc),
      MarkdownDoc.tryFromStr raw = .ok d → d.prose.hash = hash d.prose.content) ∧
    (∀ (f : FileWithMeta) (d : MarkdownDoc),
      MarkdownDoc.tryFromFile f = .ok d → d.prose.hash = hash d.prose.content) := by
  have hsplit : ∀ (raw : String) (p : Prose) (ofm : Option Frontmatter),
      split_fm_from_prose raw = .ok (p, ofm) → p.hash = hash p.content := by
    intro raw p ofm h
    unfold split_fm_from_prose at h
    split at h
    · split at h
      · exact Fallible.noConfusion h
      · exact Fallible.noConfusion h
      · rw [Fallible.ok.injEq, Prod.mk.injEq] at h
        obtain ⟨h1, _⟩ := h
        rw [← h1]
        rfl
    · rw [Fallible.ok.injEq, Prod.mk.injEq] at h
      obtain ⟨h1, _⟩ := h
      rw [← h1]
      rfl
  refine ⟨fun c => ⟨rfl, rfl⟩, ?_, hsplit, ?_, ?_⟩
  · intro fs m f h
    unfold FileWithMeta.tryFrom at h
    cases hr : read_to_string fs m.filename with
    | some c =>
      rw [hr] at h
      cases h
      rfl
    | none =>
      rw [hr] at h
      exact Except.noConfusion h
  · intro raw d h
    unfold MarkdownDoc.tryFromStr at h
    split at h
    · exact Fallible.noConfusion h
    · exact Fallible.noConfusion h
    · next prose fm heq =>
      have hp := hsplit raw prose fm heq
      rw [Fallible.ok.injEq] at h
      subst h
      exact hp
  · intro f d h
    unfold MarkdownDoc.tryFromFile at h
    split at h
    · exact Fallible.noConfusion h
    · exact Fallible.noConfusion h
    · next prose fm heq =>
      have hp := hsplit f.content prose fm heq
      rw [Fallible.ok.injEq] at h
      subst h
      exact hp

/-- C9 (witness): the invariant at a concrete successful
`FileWithMeta::try_from`. -/
theorem C9_witness :
    (FileWithMeta.mk ⟨"a", false, none, none⟩ "x" (hash "x")).hash =
      hash (FileWithMeta.mk ⟨"a", false, none, none⟩ "x" (hash "x")).content :=
  C9_hash_invariant.2.1 [("a", FsEntry.file (some "x") false none none)]
    ⟨"a", false, none, none⟩ _ rfl

/-- C10: the classification patterns require a word character
immediately before the extension, so every input that ends in `.md`,
`.htm` or `.html` *without* a word character immediately before the
extension is classified `Unknown` (in particular `".md"`, `".html"`,
`"a/.md"`), and for every input the returned `Target` keeps the input
string verbatim in `user_input`.  The universally quantified parts are
proved for *every* word-character classifier `w` — the matchers consult
the classifier only at the character before the extension, which the
hypothesis pins down — so in particular for the regex crate's
Unicode-aware `\w`; the concrete examples are ASCII, where the
instantiated classifier is exact. -/
theorem C10_word_char_required :
    (∀ (w : Char → Bool) (s : String), (fingerprintW w s).user_input = s) ∧
    (∀ (w : Char → Bool) (s : String) (r : List Char),
      s.data.reverse = 'd' :: 'm' :: '.' :: r →
      headIsWordCharW w r = false → (fingerprintW w s).kind = Fingerprint.Unknown) ∧
    (∀ (w : Char → Bool) (s : String) (r : List Char),
      s.data.reverse = 'm' :: 't' :: 'h' :: '.' :: r →
      headIsWordCharW w r = false → (fingerprintW w s).kind = Fingerprint.Unknown) ∧
    (∀ (w : Char → Bool) (s : String) (r : List Char),
      s.data.reverse = 'l' :: 'm' :: 't' :: 'h' :: '.' :: r →
      headIsWordCharW w r = false → (fingerprintW w s).kind = Fingerprint.Unknown) ∧
    (fingerprint ".md").kind = Fingerprint.Unknown ∧
    (fingerprint ".html").kind = Fingerprint.Unknown ∧
    (fingerprint "a/.md").kind = Fingerprint.Unknown := by
  refine ⟨?_, ?_, ?_, ?_, by decide, by decide, by decide⟩
  · intro w s
    unfold fingerprintW
    split
    · rfl
    · split
      · rfl
      · rfl
  · intro w s r h hw
    have hm : matchesMdW w s = false := by
      unfold matchesMdW
      rw [h]
      cases r with
      | nil => rfl
      | cons c rest =>
        show w c = false
        simpa [headIsWordCharW] using hw
    have hh : matchesHtmlW w s = false := by
      unfold matchesHtmlW
      rw [h]
      rfl
    simp [fingerprintW, hm, hh]
  · intro w s r h hw
    have hm : matchesMdW w s = false := by
      unfold matchesMdW
      rw [h]
      rfl
    have hh : matchesHtmlW w s = false := by
      unfold matchesHtmlW
      rw [h]
      cases r with
      | nil => rfl
      | cons c rest =>
        show w c = false
        simpa [headIsWordCharW] using hw
    simp [fingerprintW, hm, hh]
  · intro w s r h hw
    have hm : matchesMdW w s = false := by
      unfold matchesMdW
      rw [h]
      rfl
    have hh : matchesHtmlW w s = false := by
      unfold matchesHtmlW
      rw [h]
      cases r with
      | nil => rfl
      | cons c rest =>
        show w c = false
        simpa [headIsWordCharW] using hw
    simp [fingerprintW, hm, hh]

/-- C10 (witness): the rule applied at the bare `".md"` (nothing
precedes the extension) and at `"a/.md"` (a slash precedes it), plus the
verbatim `user_input` at `".md"`, with the classifier instantiated at
the ASCII restriction of `\w` (exact there). -/
theorem C10_witness :
    (fingerprint ".md").kind = Fingerprint.Unknown ∧
    (fingerprint "a/.md").kind = Fingerprint.Unknown ∧
    (fingerprint ".md").user_input = ".md" :=
  ⟨C10_word_char_required.2.1 isWordChar ".md" [] (by decide) (by decide),
   C10_word_char_required.2.1 isWordChar "a/.md" ['/', 'a'] (by decide) (by decide),
   C10_word_char_required.1 isWordChar ".md"⟩

end Ctx
